import Mathlib

/-!
Verification development for the gridhub DER volt-var repository
(vqpoints.ipynb, vreg.ipynb and the AARV test notebook).

The numeric core of the notebooks is embedded shallowly:

* `np_interp` models `np.interp` on a table of (x, y) pairs: constant
  extrapolation outside the table, linear interpolation inside.  The two
  parallel arrays of the source are zipped into one list of pairs.  For a
  nondecreasing table this function agrees with numpy, whose exact-hit
  branch coincides with the linear formula whenever the two surrounding
  x-values differ.
* `set_characteristic` is the table builder of vreg.ipynb (the variant
  with a reactive-power bias and no validation).
* `vqpoints_set_characteristic` is the validating builder of
  vqpoints.ipynb; its print side channel is modelled as a returned list
  of `Correction` events.
* `get_voltage` is the closed-form POC voltage formula (needs `Real.sqrt`,
  hence lives over the reals and is noncomputable).
* `aarv_state` is the loop of `show_aarv_test`; `loop_state` is the shared
  loop body of `show_bess_test` and `show_vsrc_test` (they are line for
  line identical in the source), parametrised by the per-step terminal
  voltage function `volt` so that any driving signal can be plugged in.
  `show_bess_run` and `show_vsrc_run` instantiate it exactly as the source
  does, with the time grid `t i = i * dt` of the real-arithmetic reading
  of `np.linspace`.

Machine floats are modelled by exact field arithmetic; the combinatorial
core is stated over an arbitrary `LinearOrderedField` so that witnesses
can be evaluated over `ℚ`, and the claims are stated over `ℝ`.
-/

section Generic

variable {α : Type*} [LinearOrderedField α]

/-- Piecewise-linear table lookup, modelling `np.interp (x, xp, fp)` with
the two arrays zipped into a list of pairs.  Outside the table the nearest
end value is returned; inside, the value is interpolated linearly on the
segment whose left breakpoint is the largest one not exceeding `x`. -/
def np_interp (x : α) : List (α × α) → α
  | [] => 0
  | [(_, y1)] => y1
  | (x1, y1) :: (x2, y2) :: rest =>
    if x < x1 then y1
    else if x < x2 then y1 + (y2 - y1) * (x - x1) / (x2 - x1)
    else np_interp x ((x2, y2) :: rest)

/-- The table builder of vreg.ipynb: center `Vref`, deadband, slope, the
reactive-power limits and bias are converted into the six (V, Q) points
(low sentinel, V1..V4, high sentinel).  This variant checks no limits. -/
def set_characteristic (Vref deadband slope qmax qmin qbias : α) : List (α × α) :=
  let Q1 := qmax
  let Q2 := qbias
  let Q3 := qbias
  let Q4 := qmin
  let V2 := Vref - 0.5 * deadband
  let V3 := Vref + 0.5 * deadband
  let V1 := V2 - (Q1 - Q2) / slope
  let V4 := V3 - (Q4 - Q3) / slope
  let VL := V1 - 0.01
  let VH := V4 + 0.01
  [(VL, Q1), (V1, Q1), (V2, Q2), (V3, Q3), (V4, Q4), (VH, Q4)]

/-- Correction events reported by the validating builder of
vqpoints.ipynb.  The source reports them with `print`; the side channel is
modelled as a returned list. -/
inductive Correction where
  | vrefLow | vrefHigh | qbiasHigh | qbiasLow | deadbandLow | deadbandHigh
  deriving DecidableEq, Repr

/-- The validating table builder of vqpoints.ipynb: out-of-range `Vref`,
`qbias` and `deadband` are corrected by the same if/elif chains as the
source before the table is built; the table formulas are those of
`set_characteristic`. -/
def vqpoints_set_characteristic (Vref deadband slope qmax qmin qbias : α) :
    List Correction × List (α × α) :=
  let cv : List Correction :=
    if Vref < 0.95 then [.vrefLow] else if Vref > 1.05 then [.vrefHigh] else []
  let Vref := if Vref < 0.95 then 0.95 else if Vref > 1.05 then 1.05 else Vref
  let cq : List Correction :=
    if qbias > qmax then [.qbiasHigh] else if qbias < qmin then [.qbiasLow] else []
  let qbias := if qbias > qmax then qmax else if qbias < qmin then qmin else qbias
  let cd : List Correction :=
    if deadband < 0 then [.deadbandLow] else if deadband > 0.06 then [.deadbandHigh] else []
  let deadband := if deadband < 0 then 0 else if deadband > 0.06 then 0.06 else deadband
  (cv ++ cq ++ cd, set_characteristic Vref deadband slope qmax qmin qbias)

/-- One step of the loop of `show_aarv_test`: the reference voltage moves
toward the fixed test voltage `v0`, then the target reactive power is
looked up (rebuilt table in the shift policy, offset entry point in the
offset policy, both using the updated reference), then the open-loop
filter advances Q. -/
def aarv_step (Vset dB K Qmax Qmin v0 IncRef IncOL : α) (bShiftTable : Bool)
    (s : α × α) : α × α :=
  let verr := v0 - s.1
  let vref := s.1 + verr * IncRef
  let qtarg :=
    if bShiftTable then np_interp v0 (set_characteristic vref dB K Qmax Qmin 0)
    else np_interp (v0 + (Vset - vref)) (set_characteristic Vset dB K Qmax Qmin 0)
  (vref, s.2 + (qtarg - s.2) * IncOL)

/-- The state sequence (running Vref, Q) of the loop of `show_aarv_test`,
starting from the nominal reference and zero reactive power. -/
def aarv_state (Vset dB K Qmax Qmin v0 IncRef IncOL : α) (bShiftTable : Bool) :
    ℕ → α × α
  | 0 => (Vset, 0)
  | i + 1 =>
    aarv_step Vset dB K Qmax Qmin v0 IncRef IncOL bShiftTable
      (aarv_state Vset dB K Qmax Qmin v0 IncRef IncOL bShiftTable i)

/-- One step of the shared loop body of `show_bess_test` and
`show_vsrc_test`: terminal voltage from the feedback function `volt`,
reference-voltage adaptation with the [0.95, 1.05] clamp, table-shift or
offset lookup (the shift branch rebuilds the table around the reference
of the current step, without the bias, exactly as the source does), then
the open-loop filter. -/
def loop_step (volt : α → α) (Vref dB K Qmax Qmin Qbias IncRef IncOL : α)
    (bShiftTable : Bool) (s : α × α) : α × α :=
  let vpoc := volt s.2
  let verr := vpoc - s.1
  let vnext := s.1 + verr * IncRef
  let vnext := if vnext > 1.05 then 1.05 else if vnext < 0.95 then 0.95 else vnext
  let qtarg :=
    if bShiftTable then np_interp vpoc (set_characteristic s.1 dB K Qmax Qmin 0)
    else np_interp (Vref + verr) (set_characteristic Vref dB K Qmax Qmin Qbias)
  (vnext, s.2 + (qtarg - s.2) * IncOL)

/-- The state sequence (vref i, q i) of the shared loop of
`show_bess_test` and `show_vsrc_test`.  `volt i q` is the terminal
voltage computed at step `i` from the current reactive power `q` (it
closes the loop through the grid model and the driving signals), and
`init` is the pair (initial reference, initial reactive power), which the
source stores unclamped in the index-0 slots of its output arrays. -/
def loop_state (volt : ℕ → α → α) (Vref dB K Qmax Qmin Qbias IncRef IncOL : α)
    (bShiftTable : Bool) (init : α × α) : ℕ → α × α
  | 0 => init
  | i + 1 =>
    loop_step (volt i) Vref dB K Qmax Qmin Qbias IncRef IncOL bShiftTable
      (loop_state volt Vref dB K Qmax Qmin Qbias IncRef IncOL bShiftTable init i)

/-- The target reactive power of one step of the shared bess/vsrc loop,
factored out of the loop body: table-shift lookup at the terminal
voltage, or offset lookup into the original table. -/
def loop_qtarg (volt : α → α) (Vref dB K Qmax Qmin Qbias : α) (bShiftTable : Bool)
    (s : α × α) : α :=
  let vpoc := volt s.2
  if bShiftTable then np_interp vpoc (set_characteristic s.1 dB K Qmax Qmin 0)
  else np_interp (Vref + (vpoc - s.1)) (set_characteristic Vref dB K Qmax Qmin Qbias)

/-- The target reactive power of one step of the AARV test loop, factored
out of the loop body; both policies use the reference updated in the same
step. -/
def aarv_qtarg (Vset dB K Qmax Qmin v0 IncRef : α) (bShiftTable : Bool)
    (s : α × α) : α :=
  let vref := s.1 + (v0 - s.1) * IncRef
  if bShiftTable then np_interp v0 (set_characteristic vref dB K Qmax Qmin 0)
  else np_interp (v0 + (Vset - vref)) (set_characteristic Vset dB K Qmax Qmin 0)

end Generic

section RealModel

open Real

/-- POC voltage and voltage deviation from the closed-form formula of
IEEE 1547.2-2023 clause 5.1.2, as in `get_voltage` of the notebooks. -/
noncomputable def get_voltage (rpu xpu dP dQ vsrcpu : ℝ) : ℝ × ℝ :=
  let a1 := vsrcpu * vsrcpu + rpu * dP + xpu * dQ
  let a2 := xpu * dP - rpu * dQ
  let d := Real.sqrt (a1 * a1 + a2 * a2) / vsrcpu / vsrcpu - 1.0
  (vsrcpu + d, d)

/-- System base power of the Nantucket BESS example. -/
noncomputable def SBASE : ℝ := 6.0e6

/-- System base voltage of the Nantucket BESS example. -/
noncomputable def VBASE : ℝ := 13200.0

/-- Base impedance derived from the voltage/power base pair. -/
noncomputable def ZBASE : ℝ := VBASE * VBASE / SBASE

/-- Per-unit resistance of the example feeder. -/
noncomputable def RPU : ℝ := 1.210 / ZBASE

/-- Per-unit reactance of the example feeder. -/
noncomputable def XPU : ℝ := 2.8339 / ZBASE

/-- Per-unit active power injection of the example BESS. -/
noncomputable def DP : ℝ := 6.0e6 / SBASE

/-- Open-loop time constant: the response time divided by the literal
2.3026 used by all three simulator functions. -/
noncomputable def TauOL (Tresponse : ℝ) : ℝ := Tresponse / 2.3026

/-- The open-loop decrement factor computed once per run by each
simulator: `IncOL = 1 - exp (-dt / TauOL)`. -/
noncomputable def code_IncOL (dt Tresponse : ℝ) : ℝ :=
  1 - Real.exp (-dt / TauOL Tresponse)

/-- The reference-voltage decrement factor of `show_bess_test` and
`show_vsrc_test`: `Tref = 0` disables AARV. -/
noncomputable def code_IncRef (dt Tref : ℝ) : ℝ :=
  if Tref > 0 then 1 - Real.exp (-dt / Tref) else 0

/-- The run of `show_aarv_test`: the wrapper computes the decrement
factors and the test voltage `v0 = (V1 + V2) / 2` from the characteristic
and iterates the AARV loop. -/
noncomputable def show_aarv_run (Vref dB K Qmax Qmin Tref Tresponse dt : ℝ)
    (bShiftTable : Bool) : ℕ → ℝ × ℝ :=
  let IncRef := 1 - Real.exp (-dt / Tref)
  let IncOL := code_IncOL dt Tresponse
  let vtable := set_characteristic Vref dB K Qmax Qmin 0
  let v0 := ((vtable.getD 1 (0, 0)).1 + (vtable.getD 2 (0, 0)).1) / 2
  aarv_state Vref dB K Qmax Qmin v0 IncRef IncOL bShiftTable

/-- The linear power-on ramp of `show_bess_test`, evaluated on the time
grid: zero up to `pstart = 1` s, then rising to `DP` at `1 + RampTime`. -/
noncomputable def bess_p (RampTime tmax dt : ℝ) (i : ℕ) : ℝ :=
  np_interp ((i : ℝ) * dt) [(0, 0), (1, 0), (1 + RampTime, DP), (tmax, DP)]

/-- The run of `show_bess_test`: constant source voltage 1, ramped active
power, closed loop through `get_voltage`, initial state `(Vref, 0)`. -/
noncomputable def show_bess_run (Vref dB K Qmax Qmin Tref Tresponse dt numTrefs
    RampTime : ℝ) (bShiftTable : Bool) (Qbias : ℝ) : ℕ → ℝ × ℝ :=
  let IncRef := code_IncRef dt Tref
  let tmax := if Tref > 0 then numTrefs * Tref else 300
  let IncOL := code_IncOL dt Tresponse
  loop_state (fun i q => (get_voltage RPU XPU (bess_p RampTime tmax dt i) q 1).1)
    Vref dB K Qmax Qmin Qbias IncRef IncOL bShiftTable (Vref, 0)

/-- The pre-settling iteration of `show_vsrc_test` when AARV is disabled:
ten accelerated fixed-point iterations of the static characteristic,
returning the settled reactive power. -/
noncomputable def presettleQ (vtable : List (ℝ × ℝ)) (vsrc0 : ℝ) : ℕ → ℝ
  | 0 => 0
  | n + 1 =>
    let q0 := presettleQ vtable vsrc0 n
    let v0 := (get_voltage RPU XPU DP q0 vsrc0).1
    q0 + 0.5 * (np_interp v0 vtable - q0)

/-- The trapezoidal source-voltage profile of `show_vsrc_test` on the
time grid. -/
noncomputable def vsrc_signal (Tref dt : ℝ) (i : ℕ) : ℝ :=
  np_interp ((i : ℝ) * dt)
    [(0, 1), (2 * Tref, 1), (3 * Tref, 1.02), (5 * Tref, 1.02),
     (7 * Tref, 0.98), (9 * Tref, 0.98), (10 * Tref, 1), (12 * Tref, 1)]

/-- The run of `show_vsrc_test`: trapezoidal source voltage, constant
active power `DP`, closed loop through `get_voltage`; the initial
reactive power is the pre-settled value without AARV and the bias with
AARV, and the initial reference is the caller-supplied `Vinit`. -/
noncomputable def show_vsrc_run (Vref dB K Qmax Qmin Tref Tresponse dt Vinit : ℝ)
    (bShiftTable : Bool) (Qbias : ℝ) : ℕ → ℝ × ℝ :=
  let IncRef := code_IncRef dt Tref
  let Tref := if Tref > 0 then Tref else 300
  let IncOL := code_IncOL dt Tresponse
  let vtable := set_characteristic Vref dB K Qmax Qmin Qbias
  let q0 := if IncRef ≤ 0 then presettleQ vtable (vsrc_signal Tref dt 0) 10 else Qbias
  loop_state (fun i q => (get_voltage RPU XPU DP q (vsrc_signal Tref dt i)).1)
    Vref dB K Qmax Qmin Qbias IncRef IncOL bShiftTable (Vinit, q0)

section GenericLemmas

variable {α : Type*} [LinearOrderedField α]

/-- The lookup never leaves the band spanned by the table's Q values:
on every branch `np_interp` returns either a table value or a convex
combination of two adjacent table values. -/
theorem np_interp_bounds (x lo hi : α) :
    ∀ l : List (α × α), l ≠ [] → (∀ p ∈ l, lo ≤ p.2 ∧ p.2 ≤ hi) →
      lo ≤ np_interp x l ∧ np_interp x l ≤ hi
  | [], h, _ => absurd rfl h
  | [(x1, y1)], _, hb => by
    simpa [np_interp] using hb (x1, y1) (by simp)
  | (x1, y1) :: (x2, y2) :: rest, _, hb => by
    have h1 := hb (x1, y1) (by simp)
    have h2 := hb (x2, y2) (by simp)
    have ih := np_interp_bounds x lo hi ((x2, y2) :: rest) (by simp)
      (fun p hp => hb p (List.mem_cons_of_mem _ hp))
    simp only [np_interp]
    split_ifs with hlt1 hlt2
    · exact h1
    · have hx1 : x1 ≤ x := le_of_not_lt hlt1
      have hd : (0 : α) < x2 - x1 := by
        have : x1 < x2 := lt_of_le_of_lt hx1 hlt2
        linarith
      have ht0 : 0 ≤ (x - x1) / (x2 - x1) := div_nonneg (by linarith) hd.le
      have ht1 : (x - x1) / (x2 - x1) ≤ 1 := by
        rw [div_le_one hd]; linarith
      have hval : y1 + (y2 - y1) * (x - x1) / (x2 - x1)
          = y1 + (y2 - y1) * ((x - x1) / (x2 - x1)) := by ring
      rw [hval]
      constructor
      · nlinarith [mul_nonneg ht0 (sub_nonneg.mpr h2.1),
          mul_nonneg (sub_nonneg.mpr ht1) (sub_nonneg.mpr h1.1)]
      · nlinarith [mul_nonneg ht0 (sub_nonneg.mpr h2.2),
          mul_nonneg (sub_nonneg.mpr ht1) (sub_nonneg.mpr h1.2)]
    · exact ih

/-- Shifting every breakpoint of the table by `d` is the same as shifting
the query point by `-d`: the algebraic heart of the equivalence between
the table-shift policy and the offset policy. -/
theorem np_interp_shift (x d : α) :
    ∀ l : List (α × α),
      np_interp x (l.map (fun p => (p.1 + d, p.2))) = np_interp (x - d) l
  | [] => by simp [np_interp]
  | [(x1, y1)] => by simp [np_interp]
  | (x1, y1) :: (x2, y2) :: rest => by
    have ih := np_interp_shift x d ((x2, y2) :: rest)
    simp only [List.map_cons, np_interp] at ih ⊢
    split_ifs with h1 h2 h3 h4 <;>
      first
        | rfl
        | (exact absurd (by linarith) h1)
        | (exact absurd (by linarith) h2)
        | (exact absurd (by linarith) h3)
        | (exact absurd (by linarith) h4)
        | (exact ih)
        | (rw [show x2 + d - (x1 + d) = x2 - x1 by ring,
              show x - (x1 + d) = x - d - x1 by ring])

/-- Rebuilding the zero-bias characteristic around a new center shifts
every breakpoint voltage by the drift of the center. -/
theorem set_characteristic_recenter (c Vref dB K qmax qmin : α) :
    set_characteristic c dB K qmax qmin 0
      = (set_characteristic Vref dB K qmax qmin 0).map
          (fun p => (p.1 + (c - Vref), p.2)) := by
  simp only [set_characteristic, List.map_cons, List.map_nil, List.cons.injEq,
    Prod.mk.injEq, and_true, List.nil_eq]
  exact ⟨by ring, by ring, by ring, by ring, by ring, by ring⟩

/-- With a zero bias, the table-shift policy and the offset policy of the
shared bess/vsrc loop compute the same target at every step, so the state
sequences coincide exactly. -/
theorem loop_state_policy_eq (volt : ℕ → α → α) (Vref dB K Qmax Qmin IncRef IncOL : α)
    (init : α × α) (i : ℕ) :
    loop_state volt Vref dB K Qmax Qmin 0 IncRef IncOL true init i
      = loop_state volt Vref dB K Qmax Qmin 0 IncRef IncOL false init i := by
  have key : ∀ vpoc vr : α,
      np_interp vpoc (set_characteristic vr dB K Qmax Qmin 0)
        = np_interp (Vref + (vpoc - vr)) (set_characteristic Vref dB K Qmax Qmin 0) := by
    intro vpoc vr
    rw [set_characteristic_recenter vr Vref dB K Qmax Qmin, np_interp_shift]
    congr 1
    ring
  induction i with
  | zero => rfl
  | succ i ih =>
    simp only [loop_state, ih, loop_step, if_true, if_false, Bool.false_eq_true,
      ite_true, ite_false]
    rw [key]

/-- The same equivalence for the open-loop AARV test: the shifted table
at the updated reference agrees with the offset entry point into the
original table. -/
theorem aarv_state_policy_eq (Vset dB K Qmax Qmin v0 IncRef IncOL : α) (i : ℕ) :
    aarv_state Vset dB K Qmax Qmin v0 IncRef IncOL true i
      = aarv_state Vset dB K Qmax Qmin v0 IncRef IncOL false i := by
  have key : ∀ vr : α,
      np_interp v0 (set_characteristic vr dB K Qmax Qmin 0)
        = np_interp (v0 + (Vset - vr)) (set_characteristic Vset dB K Qmax Qmin 0) := by
    intro vr
    rw [set_characteristic_recenter vr Vset dB K Qmax Qmin, np_interp_shift]
    congr 1
    ring
  induction i with
  | zero => rfl
  | succ i ih =>
    simp only [aarv_state, ih, aarv_step, if_true, if_false, Bool.false_eq_true,
      ite_true, ite_false]
    rw [key]

/-- After any step of the clamped loop the reference voltage is inside
[0.95, 1.05], whatever the terminal voltage and the decrement factor. -/
theorem loop_step_fst_mem (volt : α → α) (Vref dB K Qmax Qmin Qbias IncRef IncOL : α)
    (bShiftTable : Bool) (s : α × α) :
    0.95 ≤ (loop_step volt Vref dB K Qmax Qmin Qbias IncRef IncOL bShiftTable s).1
      ∧ (loop_step volt Vref dB K Qmax Qmin Qbias IncRef IncOL bShiftTable s).1 ≤ 1.05 := by
  simp only [loop_step]
  split_ifs with h1 h2
  · norm_num
  · norm_num
  · push_neg at h1 h2
    exact ⟨h2, h1⟩

/-- The reference voltage of the aarv step, before the open-loop filter
is applied: the first component does not depend on the policy. -/
theorem aarv_step_fst (Vset dB K Qmax Qmin v0 IncRef IncOL : α) (bShiftTable : Bool)
    (s : α × α) :
    (aarv_step Vset dB K Qmax Qmin v0 IncRef IncOL bShiftTable s).1
      = s.1 + (v0 - s.1) * IncRef := rfl

/-- Closed form of the adapted reference in the AARV test loop: geometric
approach of the running reference toward the stepped voltage `v0`. -/
theorem aarv_state_fst (Vset dB K Qmax Qmin v0 IncRef IncOL : α) (bShiftTable : Bool)
    (i : ℕ) :
    (aarv_state Vset dB K Qmax Qmin v0 IncRef IncOL bShiftTable i).1
      = v0 + (Vset - v0) * (1 - IncRef) ^ i := by
  induction i with
  | zero => simp [aarv_state]
  | succ i ih =>
    rw [aarv_state, aarv_step_fst, ih]
    ring

/-- Every Q value of the built table lies between the reactive-power
limits, provided the bias does. -/
theorem set_characteristic_q_mem (Vref dB K qmax qmin qbias : α)
    (h1 : qmin ≤ qbias) (h2 : qbias ≤ qmax) :
    ∀ p ∈ set_characteristic Vref dB K qmax qmin qbias, qmin ≤ p.2 ∧ p.2 ≤ qmax := by
  intro p hp
  have htrans : qmin ≤ qmax := le_trans h1 h2
  simp only [set_characteristic, List.mem_cons, List.not_mem_nil, or_false] at hp
  rcases hp with rfl | rfl | rfl | rfl | rfl | rfl <;>
    exact ⟨by dsimp only; linarith, by dsimp only; linarith⟩

/-- The reactive power of the shared bess/vsrc loop stays between the
limits: the lookup target is bounded by the table Q values and the
open-loop filter is a convex combination for a decrement factor in
(0, 1]. -/
theorem loop_state_q_bounds (volt : ℕ → α → α)
    (Vref dB K Qmax Qmin Qbias IncRef IncOL : α) (bShiftTable : Bool) (init : α × α)
    (hq0 : Qmin ≤ 0) (hq1 : 0 ≤ Qmax) (hb1 : Qmin ≤ Qbias) (hb2 : Qbias ≤ Qmax)
    (hOL0 : 0 < IncOL) (hOL1 : IncOL ≤ 1)
    (hi0 : Qmin ≤ init.2) (hi1 : init.2 ≤ Qmax) (i : ℕ) :
    Qmin ≤ (loop_state volt Vref dB K Qmax Qmin Qbias IncRef IncOL bShiftTable init i).2
      ∧ (loop_state volt Vref dB K Qmax Qmin Qbias IncRef IncOL bShiftTable init i).2 ≤ Qmax := by
  induction i with
  | zero => exact ⟨hi0, hi1⟩
  | succ i ih =>
    set s := loop_state volt Vref dB K Qmax Qmin Qbias IncRef IncOL bShiftTable init i
      with hs
    have hstep : (loop_state volt Vref dB K Qmax Qmin Qbias IncRef IncOL bShiftTable
        init (i + 1)).2
        = s.2 + ((if bShiftTable then
              np_interp (volt i s.2) (set_characteristic s.1 dB K Qmax Qmin 0)
            else np_interp (Vref + (volt i s.2 - s.1))
              (set_characteristic Vref dB K Qmax Qmin Qbias)) - s.2) * IncOL := rfl
    have hqt : Qmin ≤ (if bShiftTable then
          np_interp (volt i s.2) (set_characteristic s.1 dB K Qmax Qmin 0)
        else np_interp (Vref + (volt i s.2 - s.1))
          (set_characteristic Vref dB K Qmax Qmin Qbias))
        ∧ (if bShiftTable then
          np_interp (volt i s.2) (set_characteristic s.1 dB K Qmax Qmin 0)
        else np_interp (Vref + (volt i s.2 - s.1))
          (set_characteristic Vref dB K Qmax Qmin Qbias)) ≤ Qmax := by
      cases bShiftTable
      · simp only [Bool.false_eq_true, if_false]
        exact np_interp_bounds _ Qmin Qmax _ (by simp [set_characteristic])
          (set_characteristic_q_mem Vref dB K Qmax Qmin Qbias hb1 hb2)
      · simp only [if_true]
        exact np_interp_bounds _ Qmin Qmax _ (by simp [set_characteristic])
          (set_characteristic_q_mem s.1 dB K Qmax Qmin 0 hq0 hq1)
    rw [hstep]
    constructor
    · nlinarith [mul_nonneg hOL0.le (sub_nonneg.mpr hqt.1),
        mul_nonneg (sub_nonneg.mpr hOL1) (sub_nonneg.mpr ih.1)]
    · nlinarith [mul_nonneg hOL0.le (sub_nonneg.mpr hqt.2),
        mul_nonneg (sub_nonneg.mpr hOL1) (sub_nonneg.mpr ih.2)]

/-- The reference of the shared loop stays in [0.95, 1.05] whenever it
starts there: steps beyond the first are clamped unconditionally. -/
theorem loop_state_fst_mem (volt : ℕ → α → α)
    (Vref dB K Qmax Qmin Qbias IncRef IncOL : α) (bShiftTable : Bool) (init : α × α)
    (h0 : 0.95 ≤ init.1) (h1 : init.1 ≤ 1.05) (i : ℕ) :
    0.95 ≤ (loop_state volt Vref dB K Qmax Qmin Qbias IncRef IncOL bShiftTable init i).1
      ∧ (loop_state volt Vref dB K Qmax Qmin Qbias IncRef IncOL bShiftTable init i).1
        ≤ 1.05 := by
  cases i with
  | zero => exact ⟨h0, h1⟩
  | succ i => exact loop_step_fst_mem _ _ _ _ _ _ _ _ _ _ _

/-- On the segment between V1 and the zero-deadband center, the zero-bias
characteristic is the line of slope `-K` through (Vset, 0). -/
theorem np_interp_volt_var_left (Vset K qmax qmin x : α)
    (hK : 0 < K) (hlo : Vset - qmax / K < x) (hhi : x < Vset) (hmin : qmin ≤ 0) :
    np_interp x (set_characteristic Vset 0 K qmax qmin 0) = -K * (x - Vset) := by
  have hQK : 0 < qmax / K := by linarith
  have hQ : 0 < qmax := by
    rcases div_pos_iff.mp hQK with ⟨h, _⟩ | ⟨_, h⟩
    · exact h
    · exact absurd hK (not_lt.mpr h.le)
  have h34 : (qmin - 0) / K ≤ 0 :=
    div_nonpos_of_nonpos_of_nonneg (by linarith) hK.le
  simp only [set_characteristic, np_interp]
  norm_num
  split_ifs with h1 h2 h3 h4 h5 h6 h7 <;>
    first
      | linarith
      | (field_simp
         ring)

/-- An if/elif chain that tests the lower bound first computes the clamp
to [lo, hi]. -/
theorem ite_clamp_lt_first (x lo hi : α) (h : lo ≤ hi) :
    (if x < lo then lo else if x > hi then hi else x) = min hi (max lo x) := by
  split_ifs with h1 h2
  · rw [max_eq_left h1.le, min_eq_right h]
  · rw [max_eq_right (le_of_not_lt h1), min_eq_left (le_of_lt h2)]
  · rw [max_eq_right (le_of_not_lt h1), min_eq_right (le_of_not_lt h2)]

/-- An if/elif chain that tests the upper bound first computes the clamp
to [lo, hi]. -/
theorem ite_clamp_gt_first (x lo hi : α) (h : lo ≤ hi) :
    (if x > hi then hi else if x < lo then lo else x) = min hi (max lo x) := by
  split_ifs with h1 h2
  · rw [max_eq_right (h.trans h1.le), min_eq_left h1.le]
  · rw [max_eq_left h2.le, min_eq_right h]
  · rw [max_eq_right (le_of_not_lt h2), min_eq_right (le_of_not_lt h1)]

/-- The reactive-power update of the shared loop is the first-order
filter toward the factored target. -/
theorem loop_state_q_update (volt : ℕ → α → α)
    (Vref dB K Qmax Qmin Qbias IncRef IncOL : α) (bShiftTable : Bool) (init : α × α)
    (i : ℕ) :
    (loop_state volt Vref dB K Qmax Qmin Qbias IncRef IncOL bShiftTable init (i + 1)).2
      = (loop_state volt Vref dB K Qmax Qmin Qbias IncRef IncOL bShiftTable init i).2
        + (loop_qtarg (volt i) Vref dB K Qmax Qmin Qbias bShiftTable
            (loop_state volt Vref dB K Qmax Qmin Qbias IncRef IncOL bShiftTable init i)
          - (loop_state volt Vref dB K Qmax Qmin Qbias IncRef IncOL bShiftTable init i).2)
          * IncOL := rfl

/-- The reactive-power update of the AARV test loop is the first-order
filter toward the factored target. -/
theorem aarv_state_q_update (Vset dB K Qmax Qmin v0 IncRef IncOL : α)
    (bShiftTable : Bool) (i : ℕ) :
    (aarv_state Vset dB K Qmax Qmin v0 IncRef IncOL bShiftTable (i + 1)).2
      = (aarv_state Vset dB K Qmax Qmin v0 IncRef IncOL bShiftTable i).2
        + (aarv_qtarg Vset dB K Qmax Qmin v0 IncRef bShiftTable
            (aarv_state Vset dB K Qmax Qmin v0 IncRef IncOL bShiftTable i)
          - (aarv_state Vset dB K Qmax Qmin v0 IncRef IncOL bShiftTable i).2)
          * IncOL := rfl


end GenericLemmas

section RealLemmas

open Real

/-- The rounded constant 2.3026 of the source overshoots the natural
logarithm of ten: a degree-five Taylor lower bound on the exponential
separates `exp 2.3026` from 10. -/
theorem exp_23026_gt_ten : (10 : ℝ) < Real.exp 2.3026 := by
  have hsplit : Real.exp (2.3026 : ℝ) = Real.exp 1 * Real.exp 1 * Real.exp 0.3026 := by
    rw [← Real.exp_add, ← Real.exp_add]
    norm_num
  have he : (2.7182818283 : ℝ) < Real.exp 1 := Real.exp_one_gt_d9
  have htaylor : ∑ i ∈ Finset.range 6, (0.3026 : ℝ) ^ i / (Nat.factorial i)
      ≤ Real.exp 0.3026 := Real.sum_le_exp_of_nonneg (by norm_num) 6
  have hsum : (1.35337 : ℝ) ≤ ∑ i ∈ Finset.range 6, (0.3026 : ℝ) ^ i / (Nat.factorial i) := by
    rw [Finset.sum_range_succ, Finset.sum_range_succ, Finset.sum_range_succ,
      Finset.sum_range_succ, Finset.sum_range_succ, Finset.sum_range_succ,
      Finset.sum_range_zero]
    norm_num [Nat.factorial]
  have hL : (1.35337 : ℝ) ≤ Real.exp 0.3026 := le_trans hsum htaylor
  have hsq : (2.7182818283 : ℝ) * 2.7182818283 < Real.exp 1 * Real.exp 1 :=
    mul_self_lt_mul_self (by norm_num) he
  calc (10 : ℝ) < 2.7182818283 * 2.7182818283 * 1.35337 := by norm_num
    _ ≤ 2.7182818283 * 2.7182818283 * Real.exp 0.3026 :=
        mul_le_mul_of_nonneg_left hL (by norm_num)
    _ < Real.exp 1 * Real.exp 1 * Real.exp 0.3026 :=
        mul_lt_mul_of_pos_right hsq (Real.exp_pos _)
    _ = Real.exp 2.3026 := hsplit.symm

/-- Claim C5: for every nonzero source voltage, `get_voltage` returns
exactly `(Vsrc + dV, dV)` with `dV = sqrt (a1 ^ 2 + a2 ^ 2) / Vsrc ^ 2 - 1`
for `a1 = Vsrc ^ 2 + R dP + X dQ` and `a2 = X dP - R dQ`, with no
iteration; and the Nantucket scenario `R = 1.210 / ZBASE`,
`X = 2.8339 / ZBASE`, `dP = 1`, `dQ = 0`, `Vsrc = 1` yields
`Vpoc ≈ 1.0462` to four decimal places. -/
theorem get_voltage_closed_form :
    (∀ rpu xpu dP dQ vsrcpu : ℝ, vsrcpu ≠ 0 →
      get_voltage rpu xpu dP dQ vsrcpu
        = (vsrcpu
            + (Real.sqrt ((vsrcpu ^ 2 + rpu * dP + xpu * dQ) ^ 2
                + (xpu * dP - rpu * dQ) ^ 2) / vsrcpu ^ 2 - 1),
           Real.sqrt ((vsrcpu ^ 2 + rpu * dP + xpu * dQ) ^ 2
                + (xpu * dP - rpu * dQ) ^ 2) / vsrcpu ^ 2 - 1))
    ∧ |(get_voltage RPU XPU 1 0 1).1 - 1.0462| < 5e-5 := by
  constructor
  · intro rpu xpu dP dQ vsrcpu hv
    simp only [get_voltage]
    have hAB : Real.sqrt ((vsrcpu * vsrcpu + rpu * dP + xpu * dQ)
          * (vsrcpu * vsrcpu + rpu * dP + xpu * dQ)
          + (xpu * dP - rpu * dQ) * (xpu * dP - rpu * dQ))
        = Real.sqrt ((vsrcpu ^ 2 + rpu * dP + xpu * dQ) ^ 2
          + (xpu * dP - rpu * dQ) ^ 2) := by
      congr 1
      ring
    rw [hAB, div_div, ← pow_two]
    norm_num
  · have key : (get_voltage RPU XPU 1 0 1).1
        = Real.sqrt ((92309348921 : ℝ) / 84332160000) := by
      simp only [get_voltage, RPU, XPU, ZBASE, VBASE, SBASE]
      norm_num
    rw [key]
    have h1 : Real.sqrt ((92309348921 : ℝ) / 84332160000) < 1.04625 := by
      rw [Real.sqrt_lt' (by norm_num)]
      norm_num
    have h2 : (1.04615 : ℝ) < Real.sqrt ((92309348921 : ℝ) / 84332160000) := by
      rw [Real.lt_sqrt (by norm_num)]
      norm_num
    rw [abs_lt]
    constructor <;> [linarith; linarith]

/-- Witness for C5 at the concrete nonzero source voltage 2. -/
theorem get_voltage_closed_form_witness :
    (2 : ℝ) ≠ 0 ∧
    get_voltage 1 1 1 1 2
      = (2 + (Real.sqrt (((2:ℝ) ^ 2 + 1 * 1 + 1 * 1) ^ 2 + (1 * 1 - 1 * 1) ^ 2)
            / (2:ℝ) ^ 2 - 1),
         Real.sqrt (((2:ℝ) ^ 2 + 1 * 1 + 1 * 1) ^ 2 + (1 * 1 - 1 * 1) ^ 2)
            / (2:ℝ) ^ 2 - 1) :=
  ⟨by norm_num, (get_voltage_closed_form.1) 1 1 1 1 2 (by norm_num)⟩

/-- Claim C6: the validating builder of vqpoints.ipynb corrects every
out-of-range input to the nearest boundary instead of rejecting it:
`Vref` is clamped to [0.95, 1.05], the bias to [Qmin, Qmax] and the
deadband to [0, 0.06]; no failure value exists (the function is total)
and the correction report is a separate informational output that does
not alter the table beyond the clamping. -/
theorem vqpoints_clamping (Vref deadband slope qmax qmin qbias : ℝ)
    (h : qmin ≤ qmax) :
    (vqpoints_set_characteristic Vref deadband slope qmax qmin qbias).2
      = set_characteristic (min 1.05 (max 0.95 Vref)) (min 0.06 (max 0 deadband))
          slope qmax qmin (min qmax (max qmin qbias)) := by
  simp only [vqpoints_set_characteristic]
  rw [ite_clamp_lt_first Vref 0.95 1.05 (by norm_num),
    ite_clamp_gt_first qbias qmin qmax h,
    ite_clamp_lt_first deadband 0 0.06 (by norm_num)]

/-- Witness for C6: all three parameters out of range at once. -/
theorem vqpoints_clamping_witness :
    ((-0.44 : ℝ) ≤ 0.44) ∧
    (vqpoints_set_characteristic (1.2 : ℝ) (-0.01) 22 0.44 (-0.44) 0.5).2
      = set_characteristic (min 1.05 (max 0.95 (1.2 : ℝ)))
          (min 0.06 (max 0 (-0.01 : ℝ))) 22 0.44 (-0.44)
          (min (0.44 : ℝ) (max (-0.44) 0.5)) :=
  ⟨by norm_num, vqpoints_clamping 1.2 (-0.01) 22 0.44 (-0.44) 0.5 (by norm_num)⟩

/-- Claim C7: for valid parameters (positive slope, nonnegative deadband,
`Qmax ≥ 0 ≥ Qmin`, bias between the limits) the breakpoint voltages of
the built table satisfy `VL ≤ V1 ≤ V2 ≤ V3 ≤ V4 ≤ VH`. -/
theorem breakpoints_chain (Vref dB K Qmax Qmin Qbias : ℝ)
    (hK : 0 < K) (hdB : 0 ≤ dB) (hqmax : 0 ≤ Qmax) (hqmin : Qmin ≤ 0)
    (hb1 : Qmin ≤ Qbias) (hb2 : Qbias ≤ Qmax) :
    List.Chain' (· ≤ ·) ((set_characteristic Vref dB K Qmax Qmin Qbias).map Prod.fst) := by
  have h12 : 0 ≤ (Qmax - Qbias) / K := div_nonneg (by linarith) hK.le
  have h34 : (Qmin - Qbias) / K ≤ 0 :=
    div_nonpos_of_nonpos_of_nonneg (by linarith) hK.le
  simp only [set_characteristic, List.map_cons, List.map_nil, List.chain'_cons,
    List.chain'_singleton, and_true]
  refine ⟨by linarith, by linarith, by linarith, by linarith, by linarith⟩

/-- Witness for C7 at the default category B parameters with a bias. -/
theorem breakpoints_chain_witness :
    (0 : ℝ) < 22 / 3 ∧
    List.Chain' (· ≤ ·)
      ((set_characteristic (1 : ℝ) 0.04 (22 / 3) 0.44 (-0.44) 0.1).map Prod.fst) :=
  ⟨by norm_num, breakpoints_chain 1 0.04 (22 / 3) 0.44 (-0.44) 0.1 (by norm_num)
    (by norm_num) (by norm_num) (by norm_num) (by norm_num) (by norm_num)⟩

/-- Claim C8: on a valid characteristic the lookup extrapolates with the
constant `Q1 = Qmax` below `V1` and the constant `Q4 = Qmin` above `V4`,
including query voltages beyond the sentinels `VL` and `VH`. -/
theorem lookup_extrapolation (Vref dB K Qmax Qmin Qbias v : ℝ)
    (hK : 0 < K) (hdB : 0 ≤ dB) (hb1 : Qmin ≤ Qbias) (hb2 : Qbias ≤ Qmax) :
    (v < Vref - 0.5 * dB - (Qmax - Qbias) / K →
      np_interp v (set_characteristic Vref dB K Qmax Qmin Qbias) = Qmax)
    ∧ (Vref + 0.5 * dB - (Qmin - Qbias) / K < v →
      np_interp v (set_characteristic Vref dB K Qmax Qmin Qbias) = Qmin) := by
  have h12 : 0 ≤ (Qmax - Qbias) / K := div_nonneg (by linarith) hK.le
  have h34 : (Qmin - Qbias) / K ≤ 0 :=
    div_nonpos_of_nonpos_of_nonneg (by linarith) hK.le
  constructor <;> intro h <;>
    simp only [set_characteristic, np_interp] <;>
    split_ifs <;> first | rfl | ring1 | linarith

/-- Witness for C8: queries below VL and above VH on the default category
B characteristic. -/
theorem lookup_extrapolation_witness :
    np_interp (0.9 : ℝ) (set_characteristic 1 0.04 (22 / 3) 0.44 (-0.44) 0) = 0.44
    ∧ np_interp (1.09 : ℝ) (set_characteristic 1 0.04 (22 / 3) 0.44 (-0.44) 0) = -0.44 :=
  ⟨(lookup_extrapolation 1 0.04 (22 / 3) 0.44 (-0.44) 0 0.9 (by norm_num) (by norm_num)
      (by norm_num) (by norm_num)).1 (by norm_num),
   (lookup_extrapolation 1 0.04 (22 / 3) 0.44 (-0.44) 0 1.09 (by norm_num) (by norm_num)
      (by norm_num) (by norm_num)).2 (by norm_num)⟩

/-- Claim C4: with `Qmin ≤ Qbias ≤ Qmax`, the initial reactive power 0 of
`show_bess_test` inside [Qmin, Qmax], and positive step and response
times, the simulated reactive power stays inside [Qmin, Qmax] at every
step, for either policy and any horizon or ramp: the lookup target is
bounded by the table Q values and the open-loop filter is a convex
combination because `0 < IncOL ≤ 1`. -/
theorem bess_q_bounded (Vref dB K Qmax Qmin Tref Tresponse dt numTrefs RampTime
    Qbias : ℝ) (bShiftTable : Bool)
    (hq0 : Qmin ≤ 0) (hq1 : 0 ≤ Qmax) (hb1 : Qmin ≤ Qbias) (hb2 : Qbias ≤ Qmax)
    (hdt : 0 < dt) (hTr : 0 < Tresponse) (i : ℕ) :
    Qmin ≤ (show_bess_run Vref dB K Qmax Qmin Tref Tresponse dt numTrefs RampTime
        bShiftTable Qbias i).2
    ∧ (show_bess_run Vref dB K Qmax Qmin Tref Tresponse dt numTrefs RampTime
        bShiftTable Qbias i).2 ≤ Qmax := by
  have hTau : 0 < TauOL Tresponse := by
    unfold TauOL
    positivity
  have hOL0 : 0 < code_IncOL dt Tresponse := by
    unfold code_IncOL
    have hlt : Real.exp (-dt / TauOL Tresponse) < 1 := by
      rw [Real.exp_lt_one_iff]
      exact div_neg_of_neg_of_pos (by linarith) hTau
    linarith
  have hOL1 : code_IncOL dt Tresponse ≤ 1 := by
    unfold code_IncOL
    have := Real.exp_pos (-dt / TauOL Tresponse)
    linarith
  simp only [show_bess_run]
  exact loop_state_q_bounds _ _ _ _ _ _ _ _ _ _ _ hq0 hq1 hb1 hb2 hOL0 hOL1 hq0 hq1 i

/-- Witness for C4 at the category B power-on ramp scenario. -/
theorem bess_q_bounded_witness :
    (-0.44 : ℝ) ≤ (show_bess_run 1 0 22 0.44 (-0.44) 300 5 0.1 1 5 false 0.1 2).2
    ∧ (show_bess_run 1 0 22 0.44 (-0.44) 300 5 0.1 1 5 false 0.1 2).2 ≤ 0.44 :=
  bess_q_bounded 1 0 22 0.44 (-0.44) 300 5 0.1 1 5 0.1 false (by norm_num) (by norm_num)
    (by norm_num) (by norm_num) (by norm_num) (by norm_num) 2

/-- Claim C2, amended: in the two clamped simulators (`show_bess_test`
and `show_vsrc_test`), if the initial reference lies in [0.95, 1.05]
then the recorded reference voltage stays in [0.95, 1.05] at every step,
for any parameters and signals; the AARV lab-test loop applies no clamp
and its reference can leave the band (see the counterexample). -/
theorem clamped_vref_in_band (Vref dB K Qmax Qmin Tref Tresponse dt numTrefs RampTime
    Vinit Qbias : ℝ) (bShiftTable : Bool)
    (hbl : 0.95 ≤ Vref) (hbu : Vref ≤ 1.05) (hvl : 0.95 ≤ Vinit) (hvu : Vinit ≤ 1.05)
    (i : ℕ) :
    (0.95 ≤ (show_bess_run Vref dB K Qmax Qmin Tref Tresponse dt numTrefs RampTime
          bShiftTable Qbias i).1
      ∧ (show_bess_run Vref dB K Qmax Qmin Tref Tresponse dt numTrefs RampTime
          bShiftTable Qbias i).1 ≤ 1.05)
    ∧ (0.95 ≤ (show_vsrc_run Vref dB K Qmax Qmin Tref Tresponse dt Vinit
          bShiftTable Qbias i).1
      ∧ (show_vsrc_run Vref dB K Qmax Qmin Tref Tresponse dt Vinit
          bShiftTable Qbias i).1 ≤ 1.05) := by
  constructor
  · simp only [show_bess_run]
    exact loop_state_fst_mem _ _ _ _ _ _ _ _ _ _ _ hbl hbu i
  · simp only [show_vsrc_run]
    exact loop_state_fst_mem _ _ _ _ _ _ _ _ _ _ _ hvl hvu i

/-- Witness for C2 at the category B fluctuation scenario. -/
theorem clamped_vref_in_band_witness :
    (0.95 ≤ (show_bess_run 1 0 22 0.44 (-0.44) 300 5 0.1 1 5 false 0 2).1
      ∧ (show_bess_run 1 0 22 0.44 (-0.44) 300 5 0.1 1 5 false 0 2).1 ≤ 1.05)
    ∧ (0.95 ≤ (show_vsrc_run 1 0 22 0.44 (-0.44) 300 5 0.1 1.0462 false 0 2).1
      ∧ (show_vsrc_run 1 0 22 0.44 (-0.44) 300 5 0.1 1.0462 false 0 2).1 ≤ 1.05) :=
  clamped_vref_in_band 1 0 22 0.44 (-0.44) 300 5 0.1 1 5 1.0462 0 false
    (by norm_num) (by norm_num) (by norm_num) (by norm_num) 2

/-- Claim C10: the index-0 slot of the recorded reference array equals
the caller-supplied `Vref` of `show_bess_test`, respectively `Vinit` of
`show_vsrc_test`, with no clamping applied, while every slot of index at
least 1 is clamped into [0.95, 1.05]. -/
theorem vref0_unclamped (Vref dB K Qmax Qmin Tref Tresponse dt numTrefs RampTime
    Vinit Qbias : ℝ) (bShiftTable : Bool) :
    (show_bess_run Vref dB K Qmax Qmin Tref Tresponse dt numTrefs RampTime
        bShiftTable Qbias 0).1 = Vref
    ∧ (show_vsrc_run Vref dB K Qmax Qmin Tref Tresponse dt Vinit
        bShiftTable Qbias 0).1 = Vinit
    ∧ (∀ i : ℕ,
        0.95 ≤ (show_bess_run Vref dB K Qmax Qmin Tref Tresponse dt numTrefs RampTime
            bShiftTable Qbias (i + 1)).1
        ∧ (show_bess_run Vref dB K Qmax Qmin Tref Tresponse dt numTrefs RampTime
            bShiftTable Qbias (i + 1)).1 ≤ 1.05)
    ∧ (∀ i : ℕ,
        0.95 ≤ (show_vsrc_run Vref dB K Qmax Qmin Tref Tresponse dt Vinit
            bShiftTable Qbias (i + 1)).1
        ∧ (show_vsrc_run Vref dB K Qmax Qmin Tref Tresponse dt Vinit
            bShiftTable Qbias (i + 1)).1 ≤ 1.05) := by
  refine ⟨rfl, rfl, fun i => ?_, fun i => ?_⟩
  · simp only [show_bess_run, loop_state]
    exact loop_step_fst_mem _ _ _ _ _ _ _ _ _ _ _
  · simp only [show_vsrc_run, loop_state]
    exact loop_step_fst_mem _ _ _ _ _ _ _ _ _ _ _

/-- Claim C1, amended: when the reactive-power bias is zero the
table-shift policy and the offset policy produce exactly the same
reference-voltage and reactive-power sequences, in the shared bess/vsrc
loop under any terminal-voltage feedback and in the AARV test loop, so
in particular the sequences agree within the 1e-9 tolerance; a nonzero
bias breaks this because the shift branch rebuilds the table without the
bias (see the counterexample). -/
theorem policy_equiv_qbias_zero (volt : ℕ → ℝ → ℝ)
    (Vref dB K Qmax Qmin Qbias IncRef IncOL : ℝ) (init : ℝ × ℝ)
    (Vset dB2 K2 Qmax2 Qmin2 v0 IncRef2 IncOL2 : ℝ)
    (hQb : Qbias = 0) (i j : ℕ) :
    (|(loop_state volt Vref dB K Qmax Qmin Qbias IncRef IncOL true init i).2
        - (loop_state volt Vref dB K Qmax Qmin Qbias IncRef IncOL false init i).2| ≤ 1e-9
      ∧ |(loop_state volt Vref dB K Qmax Qmin Qbias IncRef IncOL true init i).1
        - (loop_state volt Vref dB K Qmax Qmin Qbias IncRef IncOL false init i).1| ≤ 1e-9)
    ∧ (|(aarv_state Vset dB2 K2 Qmax2 Qmin2 v0 IncRef2 IncOL2 true j).2
        - (aarv_state Vset dB2 K2 Qmax2 Qmin2 v0 IncRef2 IncOL2 false j).2| ≤ 1e-9
      ∧ |(aarv_state Vset dB2 K2 Qmax2 Qmin2 v0 IncRef2 IncOL2 true j).1
        - (aarv_state Vset dB2 K2 Qmax2 Qmin2 v0 IncRef2 IncOL2 false j).1| ≤ 1e-9) := by
  subst hQb
  rw [loop_state_policy_eq, aarv_state_policy_eq]
  norm_num

/-- Witness for C1 at a zero bias and concrete parameters. -/
theorem policy_equiv_qbias_zero_witness :
    |(loop_state (fun _ q => q) (1 : ℝ) 0 22 0.44 (-0.44) 0 0.01 0.5 true (1, 0) 3).2
      - (loop_state (fun _ q => q) (1 : ℝ) 0 22 0.44 (-0.44) 0 0.01 0.5 false (1, 0) 3).2|
      ≤ 1e-9 :=
  ((policy_equiv_qbias_zero (fun _ q => q) 1 0 22 0.44 (-0.44) 0 0.01 0.5 (1, 0)
      1 0 22 0.44 (-0.44) 0.98 0.01 0.5 rfl 3 3).1).1

/-- Claim C9, amended: every simulator converts the response time with
the rounded constant 2.3026 rather than the exact natural logarithm of
ten: `IncOL = 1 - exp (-dt / (Tresponse / 2.3026))
= 1 - exp (-(2.3026 dt) / Tresponse)`, and the per-step reactive-power
update of both loop bodies is
`Q (i+1) = Q i + (Qtarg i - Q i) * IncOL`. -/
theorem incol_uses_rounded_ln10 (dt Tresponse : ℝ) (volt : ℕ → ℝ → ℝ)
    (Vref dB K Qmax Qmin Qbias IncRef : ℝ) (bShiftTable : Bool) (init : ℝ × ℝ)
    (Vset v0 : ℝ) (i : ℕ) :
    code_IncOL dt Tresponse = 1 - Real.exp (-(2.3026 * dt) / Tresponse)
    ∧ (loop_state volt Vref dB K Qmax Qmin Qbias IncRef (code_IncOL dt Tresponse)
          bShiftTable init (i + 1)).2
        = (loop_state volt Vref dB K Qmax Qmin Qbias IncRef (code_IncOL dt Tresponse)
            bShiftTable init i).2
          + (loop_qtarg (volt i) Vref dB K Qmax Qmin Qbias bShiftTable
              (loop_state volt Vref dB K Qmax Qmin Qbias IncRef (code_IncOL dt Tresponse)
                bShiftTable init i)
            - (loop_state volt Vref dB K Qmax Qmin Qbias IncRef (code_IncOL dt Tresponse)
                bShiftTable init i).2) * code_IncOL dt Tresponse
    ∧ (aarv_state Vset dB K Qmax Qmin v0 IncRef (code_IncOL dt Tresponse)
          bShiftTable (i + 1)).2
        = (aarv_state Vset dB K Qmax Qmin v0 IncRef (code_IncOL dt Tresponse)
            bShiftTable i).2
          + (aarv_qtarg Vset dB K Qmax Qmin v0 IncRef bShiftTable
              (aarv_state Vset dB K Qmax Qmin v0 IncRef (code_IncOL dt Tresponse)
                bShiftTable i)
            - (aarv_state Vset dB K Qmax Qmin v0 IncRef (code_IncOL dt Tresponse)
                bShiftTable i).2) * code_IncOL dt Tresponse := by
  refine ⟨?_, loop_state_q_update volt Vref dB K Qmax Qmin Qbias IncRef _ bShiftTable init i,
    aarv_state_q_update Vset dB K Qmax Qmin v0 IncRef _ bShiftTable i⟩
  unfold code_IncOL TauOL
  congr 1
  rw [div_div_eq_mul_div]
  ring_nf

/-- Counterexample for C9: at `dt = 1`, `Tresponse = 1` the decrement
factor computed by the code differs from the value
`1 - exp (-dt / (Tresponse / log 10))` that the claim asserts exactly,
because `exp 2.3026 > 10`. -/
theorem incol_not_ln10 :
    code_IncOL 1 1 ≠ 1 - Real.exp (-1 / (1 / Real.log 10)) := by
  have hlog10 : Real.exp (-1 / (1 / Real.log 10)) = 1 / 10 := by
    rw [one_div (Real.log 10), div_eq_mul_inv, inv_inv, neg_one_mul, Real.exp_neg,
      Real.exp_log (by norm_num : (0:ℝ) < 10)]
    norm_num
  rw [hlog10]
  unfold code_IncOL TauOL
  intro h
  have hexp : Real.exp (-1 / ((1:ℝ) / 2.3026)) = 1 / 10 := by linarith
  have harg : (-1 : ℝ) / ((1:ℝ) / 2.3026) = -2.3026 := by norm_num
  rw [harg] at hexp
  have h10 : Real.exp (2.3026 : ℝ) = 10 := by
    have hn := Real.exp_neg (2.3026 : ℝ)
    rw [hexp] at hn
    have hpos := Real.exp_pos (2.3026 : ℝ)
    field_simp at hn
    linarith
  linarith [exp_23026_gt_ten]

/-- Claim C3: with AARV enabled (positive step and time constant, the
precomputed decrement factor), zero deadband, no open-loop delay
(`IncOL = 1`) and a source-voltage step at t = 0 to `(V1 + V2) / 2` that
steps the target reactive power to `Qstep` (the lookup at the stepped
voltage), the offset-policy AARV loop returns, after `n ≥ 1` steps,
exactly `Qstep * (exp (-dt / Tref)) ^ n`; when `n` steps span one time
constant this equals `Qstep * exp (-1) ≈ 0.3679 Qstep`. -/
theorem aarv_decay_law (Vset dB K Qmax Qmin v0 IncRef IncOL dt Tref : ℝ) (n : ℕ)
    (hdB : dB = 0) (hK : 0 < K) (hQ : 0 < Qmax) (hmin : Qmin ≤ 0)
    (hv0 : v0 = Vset - Qmax / (2 * K)) (hdt : 0 < dt) (hT : 0 < Tref)
    (hRef : IncRef = 1 - Real.exp (-dt / Tref)) (hOL : IncOL = 1) (hn : 1 ≤ n) :
    (aarv_state Vset dB K Qmax Qmin v0 IncRef IncOL false n).2
      = np_interp v0 (set_characteristic Vset dB K Qmax Qmin 0)
          * Real.exp (-dt / Tref) ^ n
    ∧ ((n : ℝ) * dt = Tref →
        (aarv_state Vset dB K Qmax Qmin v0 IncRef IncOL false n).2
          = np_interp v0 (set_characteristic Vset dB K Qmax Qmin 0)
              * Real.exp (-1)) := by
  subst hdB hOL hRef hv0
  set ρ := Real.exp (-dt / Tref) with hρdef
  have hρ0 : 0 < ρ := Real.exp_pos _
  have hρ1 : ρ < 1 := by
    rw [hρdef, Real.exp_lt_one_iff]
    exact div_neg_of_neg_of_pos (by linarith) hT
  have hc0 : 0 < Qmax / (2 * K) := by positivity
  have hclt : Qmax / (2 * K) < Qmax / K := by
    rw [div_lt_div_iff₀ (by positivity) hK]
    nlinarith
  have hQstep : np_interp (Vset - Qmax / (2 * K)) (set_characteristic Vset 0 K Qmax Qmin 0)
      = -K * (Vset - Qmax / (2 * K) - Vset) :=
    np_interp_volt_var_left Vset K Qmax Qmin _ hK (by linarith) (by linarith) hmin
  have hmain : ∀ m : ℕ,
      (aarv_state Vset 0 K Qmax Qmin (Vset - Qmax / (2 * K)) (1 - ρ) 1 false (m + 1)).2
        = np_interp (Vset - Qmax / (2 * K)) (set_characteristic Vset 0 K Qmax Qmin 0)
            * ρ ^ (m + 1) := by
    intro m
    have hpow0 : 0 < ρ ^ (m + 1) := pow_pos hρ0 _
    have hpow1 : ρ ^ (m + 1) ≤ 1 := pow_le_one₀ hρ0.le hρ1.le
    have hle : Qmax / (2 * K) * ρ ^ (m + 1) ≤ Qmax / (2 * K) :=
      mul_le_of_le_one_right hc0.le hpow1
    have hgt : 0 < Qmax / (2 * K) * ρ ^ (m + 1) := mul_pos hc0 hpow0
    have hfst := aarv_state_fst Vset 0 K Qmax Qmin (Vset - Qmax / (2 * K)) (1 - ρ) 1
      false m
    have key : ∀ x : ℝ, x = Vset - Qmax / (2 * K) * ρ ^ (m + 1) →
        np_interp x (set_characteristic Vset 0 K Qmax Qmin 0)
          = np_interp (Vset - Qmax / (2 * K)) (set_characteristic Vset 0 K Qmax Qmin 0)
            * ρ ^ (m + 1) := by
      intro x hx
      rw [hx,
        np_interp_volt_var_left Vset K Qmax Qmin _ hK (by linarith) (by linarith) hmin,
        hQstep]
      ring
    rw [aarv_state_q_update]
    simp only [aarv_qtarg, Bool.false_eq_true, if_false, mul_one, add_sub_cancel]
    apply key
    rw [hfst, sub_sub_cancel]
    ring
  obtain ⟨m, rfl⟩ : ∃ m, n = m + 1 := ⟨n - 1, (Nat.succ_pred_eq_of_pos hn).symm⟩
  refine ⟨hmain m, fun hNT => ?_⟩
  rw [hmain m]
  congr 1
  rw [hρdef, ← Real.exp_nat_mul]
  congr 1
  have hTne : Tref ≠ 0 := hT.ne'
  push_cast at hNT ⊢
  field_simp
  linarith

/-- Witness for C3: slope 1, limits one half, one second step and time
constant, two steps. -/
theorem aarv_decay_law_witness :
    (aarv_state (1 : ℝ) 0 1 (1 / 2) (-1 / 2) 0.75 (1 - Real.exp (-1 / 1)) 1 false 2).2
      = np_interp (0.75 : ℝ) (set_characteristic 1 0 1 (1 / 2) (-1 / 2) 0)
          * Real.exp (-1 / 1) ^ 2
    ∧ (((2 : ℕ) : ℝ) * 1 = 1 →
        (aarv_state (1 : ℝ) 0 1 (1 / 2) (-1 / 2) 0.75 (1 - Real.exp (-1 / 1)) 1
            false 2).2
          = np_interp (0.75 : ℝ) (set_characteristic 1 0 1 (1 / 2) (-1 / 2) 0)
              * Real.exp (-1)) :=
  aarv_decay_law 1 0 1 (1 / 2) (-1 / 2) 0.75 (1 - Real.exp (-1 / 1)) 1 1 1 2 rfl
    (by norm_num) (by norm_num) (by norm_num) (by norm_num) (by norm_num) (by norm_num)
    rfl rfl (by norm_num)

/-- Counterexample for C2: the AARV lab-test loop of `show_aarv_test`
applies no clamp; starting from the in-range reference 0.95 with a test
voltage below the band, the recorded reference drops below 0.95 at the
first step. -/
theorem aarv_vref_leaves_band :
    (show_aarv_run 0.95 0 1 0.25 (-0.25) 300 5 0.1 false 1).1 < 0.95 := by
  have key : (show_aarv_run 0.95 0 1 0.25 (-0.25) 300 5 0.1 false 1).1
      = 0.95 + (0.825 - 0.95) * (1 - Real.exp (-0.1 / 300)) := by
    simp only [show_aarv_run, aarv_state, aarv_step]
    norm_num [set_characteristic, List.getD]
  rw [key]
  have h1 : Real.exp ((-0.1 : ℝ) / 300) < 1 := by
    rw [Real.exp_lt_one_iff]
    norm_num
  nlinarith [h1]

/-- Counterexample for C1: with bias 0.1, the category B power-on run of
`show_bess_test` differs between the table-shift policy and the offset
policy by more than 1e-9 at the first step already, because the shift
branch rebuilds the table without the bias. -/
theorem policy_divergence_with_qbias :
    1e-9 < |(show_bess_run 1 0 22 0.44 (-0.44) 300 5 0.1 1 5 true 0.1 1).2
      - (show_bess_run 1 0 22 0.44 (-0.44) 300 5 0.1 1 5 false 0.1 1).2| := by
  have hp0 : bess_p 5 300 (1 / 10) 0 = 0 := by
    norm_num [bess_p, np_interp]
  have hvolt : (get_voltage RPU XPU (bess_p 5 300 (1 / 10) 0) 0 1).1 = 1 := by
    rw [hp0]
    norm_num [get_voltage, Real.sqrt_one]
  have htrue : (show_bess_run 1 0 22 0.44 (-0.44) 300 5 0.1 1 5 true 0.1 1).2 = 0 := by
    simp only [show_bess_run, code_IncRef, loop_state, loop_step]
    norm_num [np_interp, set_characteristic]
    rw [hvolt]
    norm_num
  have hfalse : (show_bess_run 1 0 22 0.44 (-0.44) 300 5 0.1 1 5 false 0.1 1).2
      = 0.1 * code_IncOL 0.1 5 := by
    simp only [show_bess_run, code_IncRef, loop_state, loop_step]
    norm_num [np_interp, set_characteristic]
    rw [hvolt]
    norm_num
  rw [htrue, hfalse]
  have hOL : (0.04 : ℝ) < code_IncOL 0.1 5 := by
    unfold code_IncOL TauOL
    have harg : ((-0.1 : ℝ) / (5 / 2.3026)) = -0.046052 := by norm_num
    have hz : Real.exp ((-0.1 : ℝ) / (5 / 2.3026)) ≤ 1 / (1 + 0.046052) := by
      rw [harg, Real.exp_neg, one_div]
      apply inv_anti₀ (by norm_num)
      linarith [Real.add_one_le_exp (0.046052 : ℝ)]
    have hfrac : (1 : ℝ) / (1 + 0.046052) < 0.96 := by norm_num
    linarith
  have hOLpos : (0 : ℝ) < code_IncOL 0.1 5 := by linarith
  rw [zero_sub, abs_neg,
    abs_of_nonneg (by nlinarith [hOLpos] : (0 : ℝ) ≤ 0.1 * code_IncOL 0.1 5)]
  nlinarith [hOL]

end RealLemmas
